import Mathlib

/-!
Verification of the chart-computation core of a natal-chart/transit service.
Real-number arithmetic of the source is embedded over `ℚ`; the Python
float modulo (sign of the divisor) is `fmod`, and Python's `round`
(half-to-even) is `pyRound`.
-/

/-- Python float modulo: `a % b` with the result carrying the sign of `b`
(for positive `b` the result is in `[0, b)`). -/
def fmod (a b : ℚ) : ℚ := a - b * ⌊a / b⌋

/-- `norm360` from the source: `d % 360.0`, then add 360 if negative. -/
def norm360 (d : ℚ) : ℚ :=
  let m := fmod d 360
  if m < 0 then m + 360 else m

/-- The fixed zodiac list `SIGNS` from the source. -/
def SIGNS : List String :=
  ["Aries", "Taurus", "Gemini", "Cancer", "Leo", "Virgo",
   "Libra", "Scorpio", "Sagittarius", "Capricorn", "Aquarius", "Pisces"]

/-- `sign_name` from the source: index `int(lon // 30) % 12` into `SIGNS`,
degree-in-sign `lon % 30`. -/
def sign_name (lon : ℚ) : String × ℚ :=
  (SIGNS.getD (⌊lon / 30⌋ % 12).toNat "", fmod lon 30)

/-- Python `round` to an integer: round half to even. -/
def pyRound (q : ℚ) : ℤ :=
  let f := ⌊q⌋
  if q - f < 1 / 2 then f
  else if 1 / 2 < q - f then f + 1
  else if f % 2 = 0 then f else f + 1

/-- Python `round(q, 1)`. -/
def round1 (q : ℚ) : ℚ := (pyRound (q * 10) : ℚ) / 10

/-- Python `round(q, 2)`. -/
def round2 (q : ℚ) : ℚ := (pyRound (q * 100) : ℚ) / 100

/-- Python `round(q, 6)`. -/
def round6 (q : ℚ) : ℚ := (pyRound (q * 1000000) : ℚ) / 1000000

/-- The aspect table `ASPECTS` from the source, in its source order. -/
def ASPECTS : List (ℚ × String) :=
  [(0, "conjunction"), (60, "sextile"), (90, "square"), (120, "trine"), (180, "opposition")]

/-- The `for ang, name in ASPECTS` loop body of `aspect_between`. -/
def aspectLoop (d orb : ℚ) : List (ℚ × String) → Option (String × ℚ)
  | [] => none
  | (ang, name) :: rest =>
    if |d - ang| ≤ orb then some (name, round2 |d - ang|) else aspectLoop d orb rest

/-- `aspect_between` from the source: shortest arc between two longitudes,
then the first aspect angle within `orb`. -/
def aspect_between (a b orb : ℚ) : Option (String × ℚ) :=
  let d0 := fmod |a - b| 360
  let d := if d0 > 180 then 360 - d0 else d0
  aspectLoop d orb ASPECTS

lemma fmod_nonneg_of_pos (a b : ℚ) (hb : 0 < b) : 0 ≤ fmod a b := by
  unfold fmod
  have h1 : (⌊a / b⌋ : ℚ) ≤ a / b := Int.floor_le _
  have h2 : b * (a / b) = a := by field_simp
  nlinarith [mul_le_mul_of_nonneg_left h1 hb.le]

lemma fmod_lt_of_pos (a b : ℚ) (hb : 0 < b) : fmod a b < b := by
  unfold fmod
  have h1 : a / b < ⌊a / b⌋ + 1 := Int.lt_floor_add_one _
  have h2 : b * (a / b) = a := by field_simp
  nlinarith [mul_lt_mul_of_pos_left h1 hb]

lemma fmod_eq_self (a b : ℚ) (h0 : 0 ≤ a) (h1 : a < b) : fmod a b = a := by
  unfold fmod
  have hb : 0 < b := lt_of_le_of_lt h0 h1
  have hfl : ⌊a / b⌋ = 0 := by
    rw [Int.floor_eq_zero_iff]
    constructor
    · positivity
    · rw [div_lt_one hb]; exact h1
  rw [hfl]
  push_cast
  ring

lemma norm360_eq_fmod (d : ℚ) : norm360 d = fmod d 360 := by
  unfold norm360
  rw [if_neg (not_lt.2 (fmod_nonneg_of_pos d 360 (by norm_num)))]

lemma norm360_nonneg (d : ℚ) : 0 ≤ norm360 d := by
  rw [norm360_eq_fmod]; exact fmod_nonneg_of_pos d 360 (by norm_num)

lemma norm360_lt (d : ℚ) : norm360 d < 360 := by
  rw [norm360_eq_fmod]; exact fmod_lt_of_pos d 360 (by norm_num)

lemma norm360_eq_self (d : ℚ) (h0 : 0 ≤ d) (h1 : d < 360) : norm360 d = d := by
  rw [norm360_eq_fmod]; exact fmod_eq_self d 360 h0 h1

lemma qabs_ite (q : ℚ) : |q| = if q < 0 then -q else q := by
  rcases lt_or_ge q 0 with h | h
  · rw [if_pos h, abs_of_neg h]
  · rw [if_neg (not_lt.2 h), abs_of_nonneg h]

/-- C5: `norm360` always lands in `[0, 360)` and is idempotent. -/
theorem claim_C5 (d : ℚ) :
    (0 ≤ norm360 d ∧ norm360 d < 360) ∧ norm360 (norm360 d) = norm360 d :=
  ⟨⟨norm360_nonneg d, norm360_lt d⟩,
   norm360_eq_self _ (norm360_nonneg d) (norm360_lt d)⟩

/-- C6: the aspect matcher is symmetric in its two longitudes. -/
theorem claim_C6 (a b orb : ℚ) : aspect_between a b orb = aspect_between b a orb := by
  unfold aspect_between
  rw [abs_sub_comm]

/-- C1: `aspect_between` computes the shortest arc and checks the five
aspect angles in ascending order, returning the first one within `orb`
with the deviation rounded to 2 decimals; `aspect_between 0 90.5 3` is a
square with deviation `0.5` and `aspect_between 0 95 3` is no match. -/
theorem claim_C1 (a b orb : ℚ) (horb : 0 ≤ orb) :
    (aspect_between a b orb =
      let d0 := fmod |a - b| 360
      let d := if d0 > 180 then 360 - d0 else d0
      if |d - 0| ≤ orb then some ("conjunction", round2 |d - 0|)
      else if |d - 60| ≤ orb then some ("sextile", round2 |d - 60|)
      else if |d - 90| ≤ orb then some ("square", round2 |d - 90|)
      else if |d - 120| ≤ orb then some ("trine", round2 |d - 120|)
      else if |d - 180| ≤ orb then some ("opposition", round2 |d - 180|)
      else none)
    ∧ aspect_between 0 (181 / 2) 3 = some ("square", 1 / 2)
    ∧ aspect_between 0 95 3 = none := by
  refine ⟨rfl, ?_, ?_⟩
  · norm_num [aspect_between, aspectLoop, ASPECTS, fmod, round2, pyRound, qabs_ite]
  · norm_num [aspect_between, aspectLoop, ASPECTS, fmod, qabs_ite]

/-- Witness for C1 at `a = 0`, `b = 90.5`, `orb = 3`. -/
theorem claim_C1_witness :
    (0 : ℚ) ≤ 3 ∧
    ((aspect_between 0 (181 / 2) 3 =
      let d0 := fmod |(0 : ℚ) - 181 / 2| 360
      let d := if d0 > 180 then 360 - d0 else d0
      if |d - 0| ≤ 3 then some ("conjunction", round2 |d - 0|)
      else if |d - 60| ≤ 3 then some ("sextile", round2 |d - 60|)
      else if |d - 90| ≤ 3 then some ("square", round2 |d - 90|)
      else if |d - 120| ≤ 3 then some ("trine", round2 |d - 120|)
      else if |d - 180| ≤ 3 then some ("opposition", round2 |d - 180|)
      else none)
    ∧ aspect_between 0 (181 / 2) 3 = some ("square", 1 / 2)
    ∧ aspect_between 0 95 3 = none) :=
  ⟨by norm_num, claim_C1 0 (181 / 2) 3 (by norm_num)⟩

/-- C9: assigning a zodiac sign commutes with `norm360`, and the
degree-in-sign component always lies in `[0, 30)`. -/
theorem claim_C9 (d : ℚ) :
    sign_name d = sign_name (norm360 d)
      ∧ 0 ≤ (sign_name d).2 ∧ (sign_name d).2 < 30 := by
  have hA : ⌊(d - 360 * (⌊d / 360⌋ : ℚ)) / 30⌋ = ⌊d / 30⌋ - 12 * ⌊d / 360⌋ := by
    have h : (d - 360 * (⌊d / 360⌋ : ℚ)) / 30 = d / 30 - ((12 * ⌊d / 360⌋ : ℤ) : ℚ) := by
      push_cast; ring
    rw [h, Int.floor_sub_int]
  refine ⟨?_, ?_, ?_⟩
  · unfold sign_name
    rw [norm360_eq_fmod]
    unfold fmod
    rw [hA]
    have hm : (⌊d / 30⌋ - 12 * ⌊d / 360⌋) % 12 = ⌊d / 30⌋ % 12 := by omega
    rw [hm]
    have hr : d - 360 * (⌊d / 360⌋ : ℚ) - 30 * ((⌊d / 30⌋ - 12 * ⌊d / 360⌋ : ℤ) : ℚ)
        = d - 30 * (⌊d / 30⌋ : ℚ) := by push_cast; ring
    rw [hr]
  · exact fmod_nonneg_of_pos d 30 (by norm_num)
  · exact fmod_lt_of_pos d 30 (by norm_num)

/-- The membership test of one iteration of the `house_for` loop:
`a <= L < b or (b < a and (L >= a or L < b % 360))`. -/
def houseCond (L a b : ℚ) : Prop := (a ≤ L ∧ L < b) ∨ (b < a ∧ (a ≤ L ∨ L < fmod b 360))

instance (L a b : ℚ) : Decidable (houseCond L a b) := by
  unfold houseCond; infer_instance

/-- The `for i in range(12)` loop of `house_for`, with the remaining
iteration count as explicit fuel; falls back to 12 when no index matches. -/
def houseLoop (L : ℚ) (c2 : List ℚ) : ℕ → ℕ → ℕ
  | _, 0 => 12
  | i, fuel + 1 =>
    if houseCond L (c2.getD i 0) (c2.getD (i + 1) 0) then i + 1
    else houseLoop L c2 (i + 1) fuel

/-- The normalized cusp list extended by the sentinel `c[0] + 360`. -/
def sentinel (cs : List ℚ) : List ℚ :=
  cs.map norm360 ++ [(cs.map norm360).headD 0 + 360]

/-- `house_for` from the source. -/
def house_for (L : ℚ) (cusps : List ℚ) : ℕ :=
  houseLoop (norm360 L) (sentinel cusps) 0 12

/-- Cusp access `c[i]` (0-based). -/
def cuspAt (cs : List ℚ) (i : ℕ) : ℚ := cs.getD i 0

/-- A well-formed cusp list: 12 longitudes in `[0, 360)` forming a circular
partition of the ecliptic, i.e., strictly ascending at every cyclically
adjacent pair except at the single wrap position `k`. -/
def wellFormed (cs : List ℚ) : Prop :=
  cs.length = 12 ∧ (∀ x ∈ cs, 0 ≤ x ∧ x < 360) ∧
    ∃ k < 12, ∀ i < 12, i ≠ k → cuspAt cs i < cuspAt cs ((i + 1) % 12)

/-- The equally spaced cusp list used by the spec's examples. -/
def eqCusps : List ℚ := [0, 30, 60, 90, 120, 150, 180, 210, 240, 270, 300, 330]

lemma houseLoop_first (L : ℚ) (c2 : List ℚ) :
    ∀ fuel i j, i ≤ j → j < i + fuel →
      houseCond L (c2.getD j 0) (c2.getD (j + 1) 0) →
      (∀ t, i ≤ t → t < j → ¬ houseCond L (c2.getD t 0) (c2.getD (t + 1) 0)) →
      houseLoop L c2 i fuel = j + 1 := by
  intro fuel
  induction fuel with
  | zero => intro i j h1 h2 _ _; omega
  | succ n ih =>
    intro i j h1 h2 hc hnot
    simp only [houseLoop]
    rcases eq_or_lt_of_le h1 with rfl | hlt
    · rw [if_pos hc]
    · rw [if_neg (hnot i le_rfl hlt)]
      exact ih (i + 1) j hlt (by omega) hc (fun t ht1 ht2 => hnot t (by omega) ht2)

lemma houseLoop_none (L : ℚ) (c2 : List ℚ) :
    ∀ fuel i, (∀ t, i ≤ t → t < i + fuel → ¬ houseCond L (c2.getD t 0) (c2.getD (t + 1) 0)) →
      houseLoop L c2 i fuel = 12 := by
  intro fuel
  induction fuel with
  | zero => intro i _; rfl
  | succ n ih =>
    intro i h
    simp only [houseLoop]
    rw [if_neg (h i le_rfl (by omega))]
    exact ih (i + 1) (fun t ht1 ht2 => h t (by omega) (by omega))

lemma houseLoop_mem (L : ℚ) (c2 : List ℚ) :
    ∀ fuel i, i + fuel ≤ 12 →
      1 ≤ houseLoop L c2 i fuel ∧ houseLoop L c2 i fuel ≤ 12 := by
  intro fuel
  induction fuel with
  | zero => intro i _; exact ⟨by norm_num [houseLoop], by norm_num [houseLoop]⟩
  | succ n ih =>
    intro i h
    simp only [houseLoop]
    split
    · omega
    · exact ih (i + 1) (by omega)

lemma map_norm360_eq_self (cs : List ℚ) (hbd : ∀ x ∈ cs, 0 ≤ x ∧ x < 360) :
    cs.map norm360 = cs := by
  induction cs with
  | nil => rfl
  | cons a t ih =>
    simp only [List.map_cons]
    rw [norm360_eq_self a (hbd a (by simp)).1 (hbd a (by simp)).2,
        ih (fun x hx => hbd x (by simp [hx]))]

lemma sentinel_getD_of_lt (cs : List ℚ) (hbd : ∀ x ∈ cs, 0 ≤ x ∧ x < 360)
    (i : ℕ) (hi : i < cs.length) : (sentinel cs).getD i 0 = cuspAt cs i := by
  unfold sentinel
  rw [map_norm360_eq_self cs hbd, List.getD_append _ _ _ _ hi]
  rfl

lemma sentinel_getD_last (cs : List ℚ) (hbd : ∀ x ∈ cs, 0 ≤ x ∧ x < 360)
    (hlen : cs.length = 12) : (sentinel cs).getD 12 0 = cuspAt cs 0 + 360 := by
  unfold sentinel
  rw [map_norm360_eq_self cs hbd]
  rw [List.getD_append_right _ _ _ _ (by omega)]
  cases cs with
  | nil => simp at hlen
  | cons a t => simp [hlen, cuspAt]

lemma run_mono (c : ℕ → ℚ) (k : ℕ)
    (has : ∀ i, i ≤ 10 → i ≠ k → c i < c (i + 1)) :
    ∀ p q, p ≤ q → q ≤ 11 → (q ≤ k ∨ k < p) → c p ≤ c q := by
  intro p q hpq
  induction q, hpq using Nat.le_induction with
  | base => intro _ _; exact le_rfl
  | succ q hpq ih =>
    intro hq11 hcon
    have h1 : c p ≤ c q := by
      apply ih (by omega)
      rcases hcon with h | h
      · exact Or.inl (by omega)
      · exact Or.inr h
    have h2 : c q < c (q + 1) := by
      apply has q (by omega)
      rcases hcon with h | h <;> omega
    linarith

lemma cross_lt (c : ℕ → ℚ) (k : ℕ)
    (has : ∀ i, i ≤ 10 → i ≠ k → c i < c (i + 1))
    (hwrap : k ≠ 11 → c 11 < c 0) :
    ∀ p q, p ≤ k → k < q → q ≤ 11 → c q < c p := by
  intro p q hp hq1 hq2
  have h1 : c q ≤ c 11 := run_mono c k has q 11 hq2 le_rfl (Or.inr hq1)
  have h2 : c 11 < c 0 := hwrap (by omega)
  have h3 : c 0 ≤ c p := run_mono c k has 0 p (by omega) (by omega) (Or.inl hp)
  linarith
lemma house_boundary (cs : List ℚ) (hwf : wellFormed cs) :
    ∀ j, j < 12 → house_for (cuspAt cs j) cs = j + 1 := by
  obtain ⟨hlen, hbd, k, hk, hasc⟩ := hwf
  have hbdi : ∀ i, i < 12 → 0 ≤ cuspAt cs i ∧ cuspAt cs i < 360 := by
    intro i hi
    apply hbd
    have hi' : i < cs.length := by omega
    rw [cuspAt, List.getD_eq_getElem cs 0 hi']
    exact List.getElem_mem hi'
  have has : ∀ i, i ≤ 10 → i ≠ k → cuspAt cs i < cuspAt cs (i + 1) := by
    intro i hi hne
    have h := hasc i (by omega) hne
    rwa [Nat.mod_eq_of_lt (by omega)] at h
  have hwrap : k ≠ 11 → cuspAt cs 11 < cuspAt cs 0 := by
    intro hne
    have h := hasc 11 (by omega) (by omega)
    norm_num at h
    exact h
  intro j hj
  have hsj : (sentinel cs).getD j 0 = cuspAt cs j :=
    sentinel_getD_of_lt cs hbd j (by omega)
  unfold house_for
  rw [norm360_eq_self _ (hbdi j hj).1 (hbdi j hj).2]
  refine houseLoop_first _ _ 12 0 j (by omega) (by omega) ?_ ?_
  · rw [hsj]
    by_cases hj11 : j = 11
    · subst hj11
      rw [sentinel_getD_last cs hbd hlen]
      refine Or.inl ⟨le_rfl, ?_⟩
      have h1 := (hbdi 11 (by omega)).2
      have h2 := (hbdi 0 (by omega)).1
      linarith
    · rw [sentinel_getD_of_lt cs hbd (j + 1) (by omega)]
      by_cases hjk : j = k
      · subst hjk
        have hb : cuspAt cs (j + 1) < cuspAt cs j :=
          cross_lt _ _ has hwrap j (j + 1) le_rfl (by omega) (by omega)
        exact Or.inr ⟨hb, Or.inl le_rfl⟩
      · exact Or.inl ⟨le_rfl, has j (by omega) hjk⟩
  · intro t ht0 htj
    rw [sentinel_getD_of_lt cs hbd t (by omega),
        sentinel_getD_of_lt cs hbd (t + 1) (by omega)]
    intro hcond
    by_cases htk : t = k
    · subst htk
      have hba : cuspAt cs (t + 1) < cuspAt cs t :=
        cross_lt _ _ has hwrap t (t + 1) le_rfl (by omega) (by omega)
      have h1 : cuspAt cs j < cuspAt cs t :=
        cross_lt _ _ has hwrap t j le_rfl (by omega) (by omega)
      have h2 : cuspAt cs (t + 1) ≤ cuspAt cs j :=
        run_mono _ _ has (t + 1) j (by omega) (by omega) (Or.inr (by omega))
      have hfm : fmod (cuspAt cs (t + 1)) 360 = cuspAt cs (t + 1) :=
        fmod_eq_self _ _ (hbdi (t + 1) (by omega)).1 (hbdi (t + 1) (by omega)).2
      rcases hcond with ⟨hle, _⟩ | ⟨_, hor⟩
      · linarith
      · rcases hor with hle | hlt
        · linarith
        · rw [hfm] at hlt; linarith
    · have hasct : cuspAt cs t < cuspAt cs (t + 1) := has t (by omega) htk
      rcases hcond with ⟨hle, hlt2⟩ | ⟨hba, _⟩
      · by_cases hjk2 : k < j
        · by_cases htk2 : t < k
          · have h := cross_lt _ _ has hwrap t j (by omega) hjk2 (by omega)
            linarith
          · have h : cuspAt cs (t + 1) ≤ cuspAt cs j :=
              run_mono _ _ has (t + 1) j (by omega) (by omega) (Or.inr (by omega))
            linarith
        · have h : cuspAt cs (t + 1) ≤ cuspAt cs j :=
            run_mono _ _ has (t + 1) j (by omega) (by omega) (Or.inl (by omega))
          linarith
      · linarith

lemma wellFormed_eqCusps : wellFormed eqCusps := by
  refine ⟨rfl, ?_, 11, by omega, ?_⟩
  · intro x hx
    fin_cases hx <;> norm_num
  · intro i hi hne
    interval_cases i <;> simp_all [cuspAt, eqCusps] <;> norm_num

/-- C2: with well-formed cusps, `house_for` always yields a single house
number in 1..12, a longitude equal to a cusp gets the house starting
there, and the spec's equal-spacing examples hold. -/
theorem claim_C2 (cs : List ℚ) (L : ℚ) (hwf : wellFormed cs) :
    (1 ≤ house_for L cs ∧ house_for L cs ≤ 12)
      ∧ (∀ j < 12, house_for (cuspAt cs j) cs = j + 1)
      ∧ house_for 15 eqCusps = 1 ∧ house_for 345 eqCusps = 12 := by
  refine ⟨houseLoop_mem _ _ 12 0 (by omega),
          fun j hj => house_boundary cs hwf j hj, ?_, ?_⟩
  · norm_num [house_for, sentinel, eqCusps, houseLoop, houseCond, norm360, fmod]
  · norm_num [house_for, sentinel, eqCusps, houseLoop, houseCond, norm360, fmod]

/-- Witness for C2 at the equally spaced cusp list. -/
theorem claim_C2_witness :
    wellFormed eqCusps ∧
    ((1 ≤ house_for 15 eqCusps ∧ house_for 15 eqCusps ≤ 12)
      ∧ (∀ j < 12, house_for (cuspAt eqCusps j) eqCusps = j + 1)
      ∧ house_for 15 eqCusps = 1 ∧ house_for 345 eqCusps = 12) :=
  ⟨wellFormed_eqCusps, claim_C2 eqCusps 15 wellFormed_eqCusps⟩

/-- Sorted well-formed cusps whose first cusp is above 0: longitudes below
`c[0]` match no loop condition, so the defensive fallback is reached. -/
def offCusps : List ℚ := [10, 40, 70, 100, 130, 160, 190, 220, 250, 280, 310, 340]

lemma wellFormed_offCusps : wellFormed offCusps := by
  refine ⟨rfl, ?_, 11, by omega, ?_⟩
  · intro x hx
    fin_cases hx <;> norm_num
  · intro i hi hne
    interval_cases i <;> simp_all [cuspAt, offCusps] <;> norm_num

lemma offCusps_no_match : ∀ i < 12, ¬ houseCond (norm360 5) ((sentinel offCusps).getD i 0)
    ((sentinel offCusps).getD (i + 1) 0) := by
  intro i hi
  interval_cases i <;> norm_num [sentinel, offCusps, houseCond, norm360, fmod]

/-- C4 counterexample: the cusp list `[10, 40, ..., 340]` is well-formed,
yet at longitude 5 (which lies in the 0°-crossing house 12) no loop
membership condition holds, so the claimed-unreachable defensive branch
is reached; it returns 12. -/
theorem claim_C4_counterexample :
    wellFormed offCusps
      ∧ (∀ i < 12, ¬ houseCond (norm360 5) ((sentinel offCusps).getD i 0)
            ((sentinel offCusps).getD (i + 1) 0))
      ∧ house_for 5 offCusps = 12 :=
  ⟨wellFormed_offCusps, offCusps_no_match,
   houseLoop_none _ _ 12 0 (fun t _ ht2 => offCusps_no_match t (by omega))⟩

/-- C4 amended: the defensive branch is reachable for well-formed cusps;
whenever no membership condition holds the function falls back to house
12 (which is the wraparound house that contains such longitudes). -/
theorem claim_C4 (cs : List ℚ) (L : ℚ) (hwf : wellFormed cs)
    (hno : ∀ i < 12, ¬ houseCond (norm360 L) ((sentinel cs).getD i 0)
        ((sentinel cs).getD (i + 1) 0)) :
    house_for L cs = 12 :=
  houseLoop_none _ _ 12 0 (fun t _ ht2 => hno t (by omega))

/-- Witness for C4 at cusps `[10, 40, ..., 340]` and longitude 5. -/
theorem claim_C4_witness : house_for 5 offCusps = 12 :=
  claim_C4 offCusps 5 wellFormed_offCusps offCusps_no_match
lemma pyRound_nonneg (q : ℚ) (h : 0 ≤ q) : 0 ≤ pyRound q := by
  simp only [pyRound]
  have hf : 0 ≤ ⌊q⌋ := Int.floor_nonneg.2 h
  split_ifs <;> omega

lemma pyRound_le (q : ℚ) (n : ℤ) (h : q ≤ (n : ℚ)) : pyRound q ≤ n := by
  simp only [pyRound]
  have hf : ⌊q⌋ ≤ n := le_trans (Int.floor_le_floor h) (le_of_eq (Int.floor_intCast n))
  split_ifs with h1 h2 h3
  · exact hf
  · rcases eq_or_lt_of_le hf with heq | hlt
    · exfalso
      have hcast : ((⌊q⌋ : ℚ)) = (n : ℚ) := by exact_mod_cast heq
      rw [← hcast] at h
      linarith
    · omega
  · exact hf
  · push_neg at h1
    rcases eq_or_lt_of_le hf with heq | hlt
    · exfalso
      have hcast : ((⌊q⌋ : ℚ)) = (n : ℚ) := by exact_mod_cast heq
      rw [← hcast] at h
      linarith
    · omega

lemma pyRound_eq_zero (q : ℚ) (h0 : 0 ≤ q) (h1 : q < 1 / 2) : pyRound q = 0 := by
  simp only [pyRound]
  have hf : ⌊q⌋ = 0 := by
    rw [Int.floor_eq_zero_iff]
    constructor
    · exact h0
    · linarith
  rw [hf]
  rw [if_pos]
  push_cast
  linarith

lemma round2_nonneg (q : ℚ) (h : 0 ≤ q) : 0 ≤ round2 q :=
  div_nonneg (by exact_mod_cast pyRound_nonneg (q * 100) (mul_nonneg h (by norm_num)))
    (by norm_num)

lemma round2_le_div (x : ℚ) (n : ℤ) (h : x ≤ (n : ℚ) / 100) : round2 x ≤ (n : ℚ) / 100 := by
  have h1 : x * 100 ≤ (n : ℚ) := by linarith
  have h3 : (pyRound (x * 100) : ℚ) ≤ (n : ℚ) := by exact_mod_cast pyRound_le _ _ h1
  unfold round2
  linarith

lemma round1_nonneg (q : ℚ) (h : 0 ≤ q) : 0 ≤ round1 q :=
  div_nonneg (by exact_mod_cast pyRound_nonneg (q * 10) (mul_nonneg h (by norm_num)))
    (by norm_num)

lemma round1_eq_zero (q : ℚ) (h0 : 0 ≤ q) (h1 : q < 1 / 20) : round1 q = 0 := by
  unfold round1
  rw [pyRound_eq_zero (q * 10) (mul_nonneg h0 (by norm_num)) (by linarith)]
  norm_num

/-- The angular gap used by the transit days-to-exact estimate:
`abs(((t_lon - n_lon) + 540) % 360 - 180)` from the source. -/
def delta_angle (tlon nlon : ℚ) : ℚ := |fmod (tlon - nlon + 540) 360 - 180|

/-- `abs(t.speed) or 1e-6` from the source: Python truthiness substitutes
the epsilon only when the absolute speed is exactly zero. -/
def rel_speed (speed : ℚ) : ℚ := if |speed| = 0 then 1 / 1000000 else |speed|

/-- The `approx_days_to_exact` computation of one transit hit. -/
def approx_days (tlon nlon speed : ℚ) : ℚ :=
  round1 (delta_angle tlon nlon / (rel_speed speed * 24))

lemma rel_speed_pos (speed : ℚ) : 0 < rel_speed speed := by
  unfold rel_speed
  split_ifs with h
  · norm_num
  · exact lt_of_le_of_ne (abs_nonneg _) (Ne.symm h)

lemma fmod_shift (x : ℚ) (h1 : -180 < x) (h2 : x < 180) : fmod (x + 540) 360 = x + 180 := by
  unfold fmod
  have hfl : ⌊(x + 540) / 360⌋ = 1 := by
    rw [Int.floor_eq_iff]
    constructor
    · rw [le_div_iff₀ (by norm_num)]
      push_cast
      linarith
    · rw [div_lt_iff₀ (by norm_num)]
      push_cast
      linarith
  rw [hfl]
  push_cast
  ring

/-- C3 counterexample: at transiting longitude 1, natal longitude 0 and
transit speed `5e-7`, the code divides by the raw absolute speed, not by
`max(|speed|, 1e-6)` as claimed, and the rounded results differ. -/
theorem claim_C3_counterexample :
    approx_days 1 0 (1 / 2000000)
      ≠ round1 (delta_angle 1 0 / (max |(1 / 2000000 : ℚ)| (1 / 1000000) * 24)) := by
  norm_num [approx_days, delta_angle, rel_speed, round1, pyRound, fmod, qabs_ite, max_def]

/-- C3 amended: the estimate is always non-negative; it equals
`round1(delta / (max(|speed|, 1e-6) * 24))` whenever `|speed| >= 1e-6` or
`speed = 0` (in general the code uses `|speed|` itself, substituting the
epsilon only at exactly zero speed); and for a fixed nonzero speed it is
identically 0 once the transiting longitude is close enough to the natal
longitude. -/
theorem claim_C3 (tlon nlon speed : ℚ) :
    0 ≤ approx_days tlon nlon speed
      ∧ ((1 / 1000000 ≤ |speed| ∨ speed = 0) →
          approx_days tlon nlon speed
            = round1 (delta_angle tlon nlon / (max |speed| (1 / 1000000) * 24)))
      ∧ (speed ≠ 0 →
          ∃ d, 0 < d ∧ ∀ t, |t - nlon| < d → approx_days t nlon speed = 0) := by
  have hrs := rel_speed_pos speed
  refine ⟨?_, ?_, ?_⟩
  · apply round1_nonneg
    apply div_nonneg (abs_nonneg _)
    positivity
  · intro hcase
    rcases hcase with heps | hzero
    · have hne : ¬ |speed| = 0 := by
        intro h0
        rw [h0] at heps
        norm_num at heps
      unfold approx_days rel_speed
      rw [if_neg hne, max_eq_left heps]
    · subst hzero
      unfold approx_days rel_speed
      norm_num
  · intro hs
    refine ⟨min (rel_speed speed * 24 / 20) 180, lt_min (by positivity) (by norm_num), ?_⟩
    intro t ht
    have hx1 : |t - nlon| < 180 := lt_of_lt_of_le ht (min_le_right _ _)
    have hx2 : |t - nlon| < rel_speed speed * 24 / 20 := lt_of_lt_of_le ht (min_le_left _ _)
    have habs := abs_lt.1 hx1
    have hdelta : delta_angle t nlon = |t - nlon| := by
      unfold delta_angle
      rw [fmod_shift (t - nlon) habs.1 habs.2]
      ring_nf
    unfold approx_days
    rw [hdelta]
    apply round1_eq_zero
    · exact div_nonneg (abs_nonneg _) (by positivity)
    · rw [div_lt_iff₀ (by positivity)]
      linarith

/-- Witness for C3 at `tlon = 1`, `nlon = 0`, `speed = 1`. -/
theorem claim_C3_witness :
    0 ≤ approx_days 1 0 1
      ∧ approx_days 1 0 1 = round1 (delta_angle 1 0 / (max |(1 : ℚ)| (1 / 1000000) * 24))
      ∧ ∃ d, 0 < d ∧ ∀ t, |t - 0| < d → approx_days t 0 1 = 0 := by
  have h := claim_C3 1 0 1
  exact ⟨h.1, h.2.1 (Or.inl (by norm_num)), h.2.2 (by norm_num)⟩
lemma aspect_branch (x orb : ℚ) (hx0 : 0 ≤ x) (hx : x ≤ orb) :
    0 ≤ round2 x ∧ (∃ raw, 0 ≤ raw ∧ raw ≤ orb ∧ round2 x = round2 raw)
      ∧ ((∃ n : ℤ, orb = (n : ℚ) / 100) → round2 x ≤ orb) := by
  refine ⟨round2_nonneg x hx0, ⟨x, hx0, hx, rfl⟩, ?_⟩
  rintro ⟨n, rfl⟩
  exact round2_le_div x n hx

lemma aspectLoop_cases (d orb : ℚ) (kind : String) (dev : ℚ)
    (h : aspectLoop d orb ASPECTS = some (kind, dev)) :
    0 ≤ dev
      ∧ (∃ raw, 0 ≤ raw ∧ raw ≤ orb ∧ dev = round2 raw)
      ∧ ((∃ n : ℤ, orb = (n : ℚ) / 100) → dev ≤ orb)
      ∧ (kind = "conjunction" ∨ kind = "sextile" ∨ kind = "square"
          ∨ kind = "trine" ∨ kind = "opposition") := by
  simp only [ASPECTS, aspectLoop] at h
  split_ifs at h with h0 h1 h2 h3 h4 <;>
    simp only [Option.some.injEq, Prod.mk.injEq] at h
  · obtain ⟨hk, hd⟩ := h
    obtain ⟨p1, p2, p3⟩ := aspect_branch _ orb (abs_nonneg _) h0
    exact ⟨hd ▸ p1, hd ▸ p2, fun hn => hd ▸ p3 hn, Or.inl hk.symm⟩
  · obtain ⟨hk, hd⟩ := h
    obtain ⟨p1, p2, p3⟩ := aspect_branch _ orb (abs_nonneg _) h1
    exact ⟨hd ▸ p1, hd ▸ p2, fun hn => hd ▸ p3 hn, Or.inr (Or.inl hk.symm)⟩
  · obtain ⟨hk, hd⟩ := h
    obtain ⟨p1, p2, p3⟩ := aspect_branch _ orb (abs_nonneg _) h2
    exact ⟨hd ▸ p1, hd ▸ p2, fun hn => hd ▸ p3 hn, Or.inr (Or.inr (Or.inl hk.symm))⟩
  · obtain ⟨hk, hd⟩ := h
    obtain ⟨p1, p2, p3⟩ := aspect_branch _ orb (abs_nonneg _) h3
    exact ⟨hd ▸ p1, hd ▸ p2, fun hn => hd ▸ p3 hn,
      Or.inr (Or.inr (Or.inr (Or.inl hk.symm)))⟩
  · obtain ⟨hk, hd⟩ := h
    obtain ⟨p1, p2, p3⟩ := aspect_branch _ orb (abs_nonneg _) h4
    exact ⟨hd ▸ p1, hd ▸ p2, fun hn => hd ▸ p3 hn,
      Or.inr (Or.inr (Or.inr (Or.inr hk.symm)))⟩

/-- C10: any match reported by `aspect_between` carries a deviation that is
non-negative, is the rounding of a raw deviation in `[0, orb]`, is itself
at most `orb` whenever `orb` is a multiple of 0.01, and a kind drawn from
the five recognized aspect names. -/
theorem claim_C10 (a b orb : ℚ) (kind : String) (dev : ℚ)
    (h : aspect_between a b orb = some (kind, dev)) :
    0 ≤ dev
      ∧ (∃ raw, 0 ≤ raw ∧ raw ≤ orb ∧ dev = round2 raw)
      ∧ ((∃ n : ℤ, orb = (n : ℚ) / 100) → dev ≤ orb)
      ∧ (kind = "conjunction" ∨ kind = "sextile" ∨ kind = "square"
          ∨ kind = "trine" ∨ kind = "opposition") :=
  aspectLoop_cases _ orb kind dev h

/-- Witness for C10 at the square match `aspect_between 0 90.5 3`. -/
theorem claim_C10_witness :
    0 ≤ (1 / 2 : ℚ)
      ∧ (∃ raw, 0 ≤ raw ∧ raw ≤ (3 : ℚ) ∧ (1 / 2 : ℚ) = round2 raw)
      ∧ ((∃ n : ℤ, (3 : ℚ) = (n : ℚ) / 100) → (1 / 2 : ℚ) ≤ 3)
      ∧ (("square" : String) = "conjunction" ∨ ("square" : String) = "sextile"
          ∨ ("square" : String) = "square" ∨ ("square" : String) = "trine"
          ∨ ("square" : String) = "opposition") :=
  claim_C10 0 (181 / 2) 3 "square" (1 / 2)
    (by norm_num [aspect_between, aspectLoop, ASPECTS, fmod, round2, pyRound, qabs_ite])
/-- Python `str.strip()`: drop whitespace from both ends. -/
def pyStrip (s : String) : String :=
  String.mk (((s.toList.dropWhile Char.isWhitespace).reverse.dropWhile Char.isWhitespace).reverse)

/-- A request payload for `/natal` or `/transits`: the fields that
`natal_payload` reads via `p.get(...)`. -/
structure Payload where
  date : Option String
  time : Option String
  city : Option String
  country : Option String
  timezone : Option String
  lat : Option ℚ
  lon : Option ℚ

/-- Python truthiness of `p.get(key)` for a string field: `None` and the
empty string are falsy. -/
def truthyOpt (o : Option String) : Bool :=
  match o with
  | none => false
  | some s => !s.isEmpty

/-- The chart basis assembled by `natal_payload` on success. -/
structure ChartBasis where
  lat : Option ℚ
  lon : Option ℚ
  tz : String
  jd_ut : ℚ

/-- The distinct error classifications `natal_payload` can produce. -/
inductive NatalError where
  | missingRequired
  | geocodingFailed
  | timeConversionFailed
deriving DecidableEq

/-- `natal_payload` from the source, with the geocoder and the local-to-UT
conversion passed in as oracles (the real ones consult the network and an
ephemeris routine). `localToUt` returns `none` where the source raises,
and `geocodeFn` returns `none` where the geocoder finds nothing. -/
def natal_payload (geocodeFn : String → String → Option (ℚ × ℚ))
    (localToUt : String → String → String → Option ℚ)
    (p : Payload) (require_geo : Bool) : Except NatalError ChartBasis :=
  let city := pyStrip (p.city.getD "")
  let country := pyStrip (p.country.getD "")
  let tz_name := pyStrip (p.timezone.getD "")
  if !(truthyOpt p.date && truthyOpt p.time && !tz_name.isEmpty) then
    Except.error NatalError.missingRequired
  else
    let finish : Option ℚ → Option ℚ → Except NatalError ChartBasis := fun lat lon =>
      match localToUt (p.date.getD "") (p.time.getD "") tz_name with
      | none => Except.error NatalError.timeConversionFailed
      | some jd => Except.ok ⟨lat, lon, tz_name, jd⟩
    if (p.lat.isNone || p.lon.isNone) && require_geo then
      match geocodeFn city country with
      | none => Except.error NatalError.geocodingFailed
      | some (la, lo) => finish (some la) (some lo)
    else finish p.lat p.lon

/-- C7: if date, time or timezone is absent, `natal_payload` reports the
missing-field error, yields no basis, and does so without consulting the
geocoding or time-conversion collaborators (the result is the same for
every choice of those oracles); the error kinds are pairwise distinct. -/
theorem claim_C7 (g g' : String → String → Option (ℚ × ℚ))
    (l l' : String → String → String → Option ℚ)
    (p : Payload) (rg : Bool)
    (hmiss : p.date = none ∨ p.time = none ∨ p.timezone = none) :
    natal_payload g l p rg = Except.error NatalError.missingRequired
      ∧ (∀ basis : ChartBasis, natal_payload g l p rg ≠ Except.ok basis)
      ∧ natal_payload g l p rg = natal_payload g' l' p rg
      ∧ (NatalError.missingRequired ≠ NatalError.geocodingFailed
          ∧ NatalError.missingRequired ≠ NatalError.timeConversionFailed) := by
  have herr : ∀ (g0 : String → String → Option (ℚ × ℚ))
      (l0 : String → String → String → Option ℚ),
      natal_payload g0 l0 p rg = Except.error NatalError.missingRequired := by
    intro g0 l0
    unfold natal_payload
    rcases hmiss with hd | ht | htz
    · rw [if_pos (by rw [hd]; rfl)]
    · rw [if_pos (by rw [ht]; simp [truthyOpt])]
    · rw [if_pos (by rw [htz]; simp [show ((pyStrip "").isEmpty) = true from by decide])]
  refine ⟨herr g l, ?_, (herr g l).trans (herr g' l').symm, by decide, by decide⟩
  intro basis hok
  rw [herr g l] at hok
  exact Except.noConfusion hok

/-- Witness for C7: a payload with a date and a time but no timezone. -/
theorem claim_C7_witness :
    natal_payload (fun _ _ => some (1, 2)) (fun _ _ _ => some 0)
        ⟨some "2024-01-01", some "12:00", some "X", some "Y", none, none, none⟩ true
      = Except.error NatalError.missingRequired
      ∧ (∀ basis : ChartBasis,
          natal_payload (fun _ _ => some (1, 2)) (fun _ _ _ => some 0)
            ⟨some "2024-01-01", some "12:00", some "X", some "Y", none, none, none⟩ true
          ≠ Except.ok basis)
      ∧ natal_payload (fun _ _ => some (1, 2)) (fun _ _ _ => some 0)
          ⟨some "2024-01-01", some "12:00", some "X", some "Y", none, none, none⟩ true
        = natal_payload (fun _ _ => none) (fun _ _ _ => none)
            ⟨some "2024-01-01", some "12:00", some "X", some "Y", none, none, none⟩ true
      ∧ (NatalError.missingRequired ≠ NatalError.geocodingFailed
          ∧ NatalError.missingRequired ≠ NatalError.timeConversionFailed) :=
  claim_C7 (fun _ _ => some (1, 2)) (fun _ _ => none) (fun _ _ _ => some 0)
    (fun _ _ _ => none)
    ⟨some "2024-01-01", some "12:00", some "X", some "Y", none, none, none⟩ true
    (Or.inr (Or.inr rfl))
/-- `NATAL_ORB` from the source. -/
def NATAL_ORB : ℚ := 6

/-- `TRANSIT_ORB` from the source. -/
def TRANSIT_ORB : ℚ := 3

/-- One ephemeris answer for a body: longitude, latitude, distance, speed
(the first four components of `swe.calc_ut`). -/
structure EphPos where
  lon : ℚ
  latp : ℚ
  dist : ℚ
  speed : ℚ

/-- One ephemeris answer for a location: 12 cusps plus ascendant and
midheaven (`swe.houses`). -/
structure HouseData where
  cusps : List ℚ
  asc : ℚ
  mc : ℚ

/-- The names of the ten tracked bodies, in the source's `PLANETS` order. -/
def PLANET_NAMES : List String :=
  ["Sun", "Moon", "Mercury", "Venus", "Mars", "Jupiter",
   "Saturn", "Uranus", "Neptune", "Pluto"]

/-- One entry of the list built by `planet_positions`. -/
structure PlanetPos where
  name : String
  lon : ℚ
  sign : String
  deg_in_sign : ℚ
  speed : ℚ

/-- `planet_positions` from the source, with `swe.calc_ut` as the oracle
`calcFn`: longitude is normalized and rounded to 6 decimals, degree-in-sign
to 2 decimals. -/
def planet_positions (calcFn : ℚ → String → EphPos) (jd : ℚ) : List PlanetPos :=
  PLANET_NAMES.map (fun name =>
    let r := calcFn jd name
    let sd := sign_name r.lon
    { name := name, lon := round6 (norm360 r.lon), sign := sd.1,
      deg_in_sign := round2 sd.2, speed := r.speed })

/-- A planet entry of the `/natal` response, after house assignment. -/
structure PlanetOut where
  name : String
  lon : ℚ
  sign : String
  deg_in_sign : ℚ
  speed : ℚ
  house : ℕ

/-- One aspect entry of the `/natal` response. -/
structure AspectOut where
  a : String
  b : String
  type : String
  orb : ℚ

/-- One house entry of the `/natal` response. -/
structure HouseOut where
  num : ℕ
  lon : ℚ
  sign : String
  deg_in_sign : ℚ

/-- The computed part of the `/natal` response. -/
structure Chart where
  ascendant : ℚ
  mc : ℚ
  planets : List PlanetOut
  houses : List HouseOut
  aspects : List AspectOut

/-- The `i < j` double loop collecting natal aspects. -/
def pair_aspects (orb : ℚ) : List PlanetOut → List AspectOut
  | [] => []
  | p :: rest =>
    (rest.filterMap (fun q =>
      match aspect_between p.lon q.lon orb with
      | some (t, d) => some ⟨p.name, q.name, t, d⟩
      | none => none)) ++ pair_aspects orb rest

/-- The chart assembly of the `/natal` endpoint for a fixed Julian Day and
location, with the two ephemeris calls passed in as oracles. -/
def natal_chart (housesFn : ℚ → ℚ → ℚ → HouseData) (calcFn : ℚ → String → EphPos)
    (jd lat lon : ℚ) : Chart :=
  let hd := housesFn jd lat lon
  let cusps := hd.cusps.take 12
  let planets := (planet_positions calcFn jd).map (fun pl =>
    { name := pl.name, lon := pl.lon, sign := pl.sign, deg_in_sign := pl.deg_in_sign,
      speed := pl.speed, house := house_for pl.lon cusps : PlanetOut })
  let houses_out := cusps.enum.map (fun ic =>
    let sd := sign_name ic.2
    { num := ic.1 + 1, lon := round6 (norm360 ic.2), sign := sd.1,
      deg_in_sign := round2 sd.2 : HouseOut })
  { ascendant := round6 (norm360 hd.asc), mc := round6 (norm360 hd.mc),
    planets := planets, houses := houses_out,
    aspects := pair_aspects NATAL_ORB planets }

/-- C8: chart building is deterministic — with the ephemeris oracles
modeled as pure functions, any two oracles that agree pointwise produce
identical charts for the same Julian Day and location (in particular two
runs with the same oracle give the same chart). -/
theorem claim_C8 (h1 h2 : ℚ → ℚ → ℚ → HouseData) (c1 c2 : ℚ → String → EphPos)
    (jd lat lon : ℚ)
    (hh : ∀ a b c, h1 a b c = h2 a b c) (hc : ∀ a n, c1 a n = c2 a n) :
    natal_chart h1 c1 jd lat lon = natal_chart h2 c2 jd lat lon := by
  have e1 : h1 = h2 := funext fun a => funext fun b => funext fun c => hh a b c
  have e2 : c1 = c2 := funext fun a => funext fun n => hc a n
  rw [e1, e2]

/-- Witness for C8 with a constant ephemeris oracle. -/
theorem claim_C8_witness :
    natal_chart (fun _ _ _ => ⟨[0], 0, 0⟩) (fun _ _ => ⟨0, 0, 0, 0⟩) 0 0 0
      = natal_chart (fun _ _ _ => ⟨[0], 0, 0⟩) (fun _ _ => ⟨0, 0, 0, 0⟩) 0 0 0 :=
  claim_C8 (fun _ _ _ => ⟨[0], 0, 0⟩) (fun _ _ _ => ⟨[0], 0, 0⟩)
    (fun _ _ => ⟨0, 0, 0, 0⟩) (fun _ _ => ⟨0, 0, 0, 0⟩) 0 0 0
    (fun _ _ _ => rfl) (fun _ _ => rfl)
